import Mathlib

/-!
Verification development for the `yt_reporting_analytics` repository.

Shallow embedding of the reporting poller (`src/reporting/reporting_client.py`),
the job-registry client, the CLI orchestrator's job resolution and the
analytics per-video loop (`src/main.py`).

Time model: `datetime` values are represented as epoch milliseconds (`Int`).
The Python code derives `report_date = datetime.utcfromtimestamp(end_time_ms / 1000)`
and compares it with the optional `start_date` / `end_date` datetimes; the map
from epoch milliseconds to datetimes is strictly monotone, so those datetime
comparisons coincide with `Int` comparisons on the millisecond scale, with the
filter bounds expressed on the same scale.  A missing `endTimeMs` field is read
as `0` by `int(report.get("endTimeMs", 0))`, i.e. epoch 0 (1970-01-01 UTC).

External effects (HTTP listing snapshots per poll attempt, HTTP GET responses,
remote job creation) are supplied by explicit environment records; the embedded
functions also count the listing calls and inter-attempt sleeps the Python code
performs, so that the temporal claims about "no further listing calls / waits"
become statements about those counters.
-/

/-- One report-file metadata object from a `jobs().reports().list` listing.
`endTimeMs` is `none` when the JSON object lacks the field
(`report.get("endTimeMs", 0)` then yields `0`). -/
structure ReportFile where
  endTimeMs : Option Int
  downloadUrl : String
  deriving DecidableEq, Repr

/-- `end_time_ms = int(report.get("endTimeMs", 0))`, the period-end timestamp
the poller derives for a file (epoch-millisecond scale, see the time model). -/
def reportDate (r : ReportFile) : Int :=
  r.endTimeMs.getD 0

/-- The date-window test of `poll_and_download_reports` (line 123):
`(not start_date or report_date >= start_date) and
 (not end_date or report_date <= end_date)`.
`none` models Python `None` (a `datetime` is always truthy). -/
def dateMatch (start_date end_date : Option Int) (r : ReportFile) : Bool :=
  (match start_date with
   | none => true
   | some s => decide (reportDate r ≥ s))
  &&
  (match end_date with
   | none => true
   | some e => decide (reportDate r ≤ e))

/-- An HTTP response as seen by `requests` / `AuthorizedSession.get`. -/
structure HttpResponse where
  status : Nat
  text : String
  deriving DecidableEq, Repr

/-- `download_report_file`: authenticated GET on the url, then
`response.raise_for_status()` (raises exactly when `400 ≤ status < 600`),
then return `response.text`. The error value is the offending status code. -/
def download_report_file (http : String → HttpResponse) (url : String) :
    Except Nat String :=
  let r := http url
  if 400 ≤ r.status ∧ r.status < 600 then .error r.status else .ok r.text

/-- Environment of one polling session: `listings i` is the fresh report-file
snapshot returned by the `list_report_files` call of attempt `i` (0-based),
and `http` answers the download GETs. -/
structure PollEnv where
  listings : Nat → List ReportFile
  http : String → HttpResponse

/-- Result of a polling session, with effect counters:
`listCalls` counts `list_report_files` calls, `waits` counts
`time.sleep(poll_interval)` suspensions. -/
structure PollResult where
  downloaded : List String
  listCalls : Nat
  waits : Nat
  deriving DecidableEq, Repr

/-- The inner `for report in reports:` loop of `poll_and_download_reports`
(lines 120-125): for each file passing the date-window test, download its
content and append it to `downloaded`; a download failure propagates. -/
def downloadMatching (http : String → HttpResponse)
    (start_date end_date : Option Int) :
    List ReportFile → List String → Except Nat (List String)
  | [], acc => .ok acc
  | r :: rest, acc =>
    if dateMatch start_date end_date r then
      match download_report_file http r.downloadUrl with
      | .error st => .error st
      | .ok content => downloadMatching http start_date end_date rest (acc ++ [content])
    else
      downloadMatching http start_date end_date rest acc

/-- The `for _ in range(max_attempts):` loop (lines 118-129), recursing on the
remaining attempt budget. After processing an attempt's listing, a non-empty
`downloaded` breaks out of the loop; otherwise the code logs and sleeps
(unconditionally — also after the final attempt) before the next iteration. -/
def pollLoop (env : PollEnv) (start_date end_date : Option Int) :
    Nat → Nat → List String → Nat → Nat → Except Nat PollResult
  | 0, _, downloaded, lc, w => .ok ⟨downloaded, lc, w⟩
  | n + 1, i, downloaded, lc, w =>
    match downloadMatching env.http start_date end_date (env.listings i) downloaded with
    | .error st => .error st
    | .ok downloaded' =>
      if downloaded'.isEmpty then
        pollLoop env start_date end_date n (i + 1) downloaded' (lc + 1) (w + 1)
      else
        .ok ⟨downloaded', lc + 1, w⟩

/-- `poll_and_download_reports(job_id, poll_interval, max_attempts, start_date,
end_date)` (lines 100-130): starts from an empty `downloaded` list and runs the
attempt loop. `poll_interval` only scales the sleep duration (each counted wait
lasts `poll_interval` seconds), so it does not influence the result value. -/
def poll_and_download_reports (env : PollEnv) (poll_interval : Nat)
    (max_attempts : Nat) (start_date end_date : Option Int) :
    Except Nat PollResult :=
  let _ := poll_interval
  pollLoop env start_date end_date max_attempts 0 [] 0 0

/-- A reporting job object (`{"id": ..., "reportTypeId": ..., "name": ...}`);
`reportTypeId` is `none` when `job.get("reportTypeId")` would return `None`. -/
structure Job where
  id : String
  reportTypeId : Option String
  name : String
  deriving DecidableEq, Repr

/-- Remote job-registry behaviour: `create rtid name` is the outcome of
`jobs().create(body={...}).execute()` (error = `HttpError` status), and `jobs`
is the snapshot returned by `list_reporting_jobs`. -/
structure RegistryEnv where
  create : String → String → Except Nat Job
  jobs : List Job

/-- `list_reporting_jobs(service)` (lines 34-44). -/
def list_reporting_jobs (env : RegistryEnv) : List Job :=
  env.jobs

/-- `create_reporting_job(service, report_type_id, name)` (lines 47-66):
try remote creation; on an `HttpError` with status 409 scan the job listing
for the first job whose `reportTypeId` matches and return it; re-raise the
error when no job matches or the status is not 409. -/
def create_reporting_job (env : RegistryEnv) (report_type_id name : String) :
    Except Nat Job :=
  match env.create report_type_id name with
  | .ok job => .ok job
  | .error status =>
    if status = 409 then
      match (list_reporting_jobs env).find?
          (fun j => j.reportTypeId == some report_type_id) with
      | some job => .ok job
      | none => .error status
    else
      .error status

/-- Result of the reporting command's job resolution (`main.py` lines 212-231):
the resolved `used_job_id`, the number of `create_reporting_job` calls and the
number of `list_reporting_jobs` calls the orchestrator issued. -/
structure ResolveResult where
  used_job_id : String
  createCalls : Nat
  listCalls : Nat
  deriving DecidableEq, Repr

/-- The job-resolution block of the `reporting` command (`main.py` 212-231):
an explicit `--job-id` is used verbatim; else `--force-new` creates a job
unconditionally; else the first listed job whose `reportTypeId` matches is
reused, and a job is created only when none matches. -/
def resolve_job (env : RegistryEnv) (job_id : Option String) (force_new : Bool)
    (report_type_id : String) : Except Nat ResolveResult :=
  match job_id with
  | some jid => .ok ⟨jid, 0, 0⟩
  | none =>
    if force_new then
      match create_reporting_job env report_type_id "Forced New Report" with
      | .ok job => .ok ⟨job.id, 1, 0⟩
      | .error st => .error st
    else
      match (list_reporting_jobs env).find?
          (fun j => j.reportTypeId == some report_type_id) with
      | some job => .ok ⟨job.id, 0, 1⟩
      | none =>
        match create_reporting_job env report_type_id
            ("Report " ++ report_type_id) with
        | .ok job => .ok ⟨job.id, 1, 1⟩
        | .error st => .error st

/-- JSON values as produced by `json.load`; an object is an association list of
distinct keys (a Python `dict`). -/
inductive Json where
  | null
  | bool (b : Bool)
  | num (n : Int)
  | str (s : String)
  | arr (elems : List Json)
  | obj (fields : List (String × Json))

/-- `load_video_ids` (`main.py` 50-73) applied to the parsed JSON document:
a JSON array is returned as is; an object containing the key `"video_ids"`
yields the value under that key; any other shape raises
`ValueError("Invalid config format")`. -/
def load_video_ids (data : Json) : Except String Json :=
  match data with
  | .arr elems => .ok (.arr elems)
  | .obj fields =>
    match fields.lookup "video_ids" with
    | some v => .ok v
    | none => .error "Invalid config format"
  | _ => .error "Invalid config format"

/-- Environment of the analytics command's per-video body (`main.py` 147-163):
`fetch vid` is the outcome of `fetch_video_stats(vid)`, and `emit vid resp`
the outcome of formatting and writing/echoing that video's result. -/
structure AnalyticsEnv (Resp : Type) where
  fetch : String → Except String Resp
  emit : String → Resp → Except String Unit

/-- The body of the `try:` block for one video (`main.py` 149-161): fetch the
stats, then format and emit them; a failure at either step raises. -/
def process_video {Resp : Type} (env : AnalyticsEnv Resp) (vid : String) :
    Except String Unit :=
  match env.fetch vid with
  | .error e => .error e
  | .ok response => env.emit vid response

/-- The `for vid in video_ids:` loop of the analytics command (`main.py`
147-163): each video's body runs under `try/except Exception`, so an error is
recorded (logged) for that video and the loop continues with the rest. -/
def analytics_loop {Resp : Type} (env : AnalyticsEnv Resp) :
    List String → List (String × Except String Unit)
  | [] => []
  | vid :: rest => (vid, process_video env vid) :: analytics_loop env rest

/-- Contents collected from attempt `i`'s listing when every download succeeds:
the listed files passing the date-window test, in listing order, mapped to the
response text of their download url. -/
def attemptMatches (env : PollEnv) (start_date end_date : Option Int)
    (i : Nat) : List String :=
  ((env.listings i).filter (dateMatch start_date end_date)).map
    (fun r => (env.http r.downloadUrl).text)

/-- Concrete session: no report file ever appears, every GET succeeds. -/
def envNoFiles : PollEnv :=
  ⟨fun _ => [], fun _ => ⟨200, "x"⟩⟩

/-- Concrete session: attempt 0 lists nothing, every later attempt lists one
file with period end 5 ms; every GET returns body `"C"`. -/
def envSecondAttempt : PollEnv :=
  ⟨fun i => if i = 0 then [] else [⟨some 5, "u"⟩], fun _ => ⟨200, "C"⟩⟩

/-- Concrete session: one listing with two in-window files; the GET for url
`"bad"` answers status 500, every other GET succeeds. -/
def envFailingDownload : PollEnv :=
  ⟨fun _ => [⟨some 5, "good"⟩, ⟨some 6, "bad"⟩],
   fun u => if u = "bad" then ⟨500, ""⟩ else ⟨200, "ok"⟩⟩

/-- Concrete registry: creation always answers HTTP 409, one job of report
type `"rt"` is listed. -/
def envConflict : RegistryEnv :=
  ⟨fun _ _ => .error 409, [⟨"J1", some "rt", "N"⟩]⟩

/-- Concrete registry: creation succeeds with a fresh job although a job of
the same report type is already listed. -/
def envExistingJob : RegistryEnv :=
  ⟨fun _ _ => .ok ⟨"NEW", some "rt", "F"⟩, [⟨"OLD", some "rt", "O"⟩]⟩

/-- Concrete analytics environment: fetching video `"bad"` fails, every other
fetch and every emit succeeds. -/
def envOneBadVideo : AnalyticsEnv Nat :=
  ⟨fun v => if v = "bad" then .error "boom" else .ok 1, fun _ _ => .ok ()⟩

/-- A download with a success status returns the response body. -/
theorem download_report_file_ok (http : String → HttpResponse) (url : String)
    (h : (http url).status < 400) :
    download_report_file http url = .ok (http url).text := by
  simp only [download_report_file]
  rw [if_neg (by omega)]

/-- A download with a client/server error status raises that status. -/
theorem download_report_file_err (http : String → HttpResponse) (url : String)
    (h4 : 400 ≤ (http url).status) (h6 : (http url).status < 600) :
    download_report_file http url = .error (http url).status := by
  simp only [download_report_file]
  rw [if_pos ⟨h4, h6⟩]

/-- Processing a listing with no file passing the date window downloads
nothing and leaves the accumulator unchanged. -/
theorem downloadMatching_no_match (http : String → HttpResponse)
    (s e : Option Int) :
    ∀ (reports : List ReportFile) (acc : List String),
      reports.filter (dateMatch s e) = [] →
      downloadMatching http s e reports acc = .ok acc := by
  intro reports
  induction reports with
  | nil => intro acc _; rfl
  | cons r rest ih =>
    intro acc h
    rw [List.filter_cons] at h
    by_cases hm : dateMatch s e r = true
    · rw [if_pos hm] at h
      exact absurd h (by simp)
    · have hm' : dateMatch s e r = false := by simpa using hm
      simp only [downloadMatching, hm', Bool.false_eq_true, if_false]
      exact ih acc (by simpa [hm'] using h)

/-- When every file passing the date window downloads with a success status,
processing a listing appends exactly the matching files' contents, in
listing order. -/
theorem downloadMatching_all_ok (http : String → HttpResponse)
    (s e : Option Int) :
    ∀ (reports : List ReportFile) (acc : List String),
      (∀ r ∈ reports, dateMatch s e r = true → (http r.downloadUrl).status < 400) →
      downloadMatching http s e reports acc =
        .ok (acc ++ (reports.filter (dateMatch s e)).map
              (fun r => (http r.downloadUrl).text)) := by
  intro reports
  induction reports with
  | nil => intro acc _; simp [downloadMatching]
  | cons r rest ih =>
    intro acc hok
    by_cases hm : dateMatch s e r = true
    · have hdl := download_report_file_ok http r.downloadUrl (hok r (by simp) hm)
      simp only [downloadMatching, hm, if_true, hdl]
      rw [ih (acc ++ [(http r.downloadUrl).text])
        (fun x hx hmx => hok x (List.mem_cons_of_mem _ hx) hmx)]
      rw [List.filter_cons, if_pos hm]
      simp
    · have hm' : dateMatch s e r = false := by simpa using hm
      simp only [downloadMatching, hm', Bool.false_eq_true, if_false]
      rw [ih acc (fun x hx hmx => hok x (List.mem_cons_of_mem _ hx) hmx)]
      rw [List.filter_cons, if_neg (by simp [hm'])]

/-- Processing a listing whose date-matching prefix downloads fine but whose
next matching file `f` has an error status propagates `f`'s status. -/
theorem downloadMatching_err (http : String → HttpResponse) (s e : Option Int)
    (f : ReportFile) (hf : dateMatch s e f = true)
    (h4 : 400 ≤ (http f.downloadUrl).status)
    (h6 : (http f.downloadUrl).status < 600) :
    ∀ (pre rest : List ReportFile) (acc : List String),
      (∀ r ∈ pre, dateMatch s e r = true → (http r.downloadUrl).status < 400) →
      downloadMatching http s e (pre ++ f :: rest) acc =
        .error (http f.downloadUrl).status := by
  intro pre
  induction pre with
  | nil =>
    intro rest acc _
    have hdl := download_report_file_err http f.downloadUrl h4 h6
    simp only [List.nil_append, downloadMatching, hf, if_true, hdl]
  | cons r pre' ih =>
    intro rest acc hok
    by_cases hm : dateMatch s e r = true
    · have hdl := download_report_file_ok http r.downloadUrl (hok r (by simp) hm)
      simp only [List.cons_append, downloadMatching, hm, if_true, hdl]
      exact ih rest _ (fun x hx hmx => hok x (List.mem_cons_of_mem _ hx) hmx)
    · have hm' : dateMatch s e r = false := by simpa using hm
      simp only [List.cons_append, downloadMatching, hm', Bool.false_eq_true,
        if_false]
      exact ih rest acc (fun x hx hmx => hok x (List.mem_cons_of_mem _ hx) hmx)

/-- A run of attempts whose listings all fail the date window exhausts the
budget: one listing call and one sleep per attempt, nothing downloaded. -/
theorem pollLoop_exhaust (env : PollEnv) (s e : Option Int) :
    ∀ (n i lc w : Nat),
      (∀ j, j < n → (env.listings (i + j)).filter (dateMatch s e) = []) →
      pollLoop env s e n i [] lc w = .ok ⟨[], lc + n, w + n⟩ := by
  intro n
  induction n with
  | zero => intro i lc w _; simp [pollLoop]
  | succ n ih =>
    intro i lc w h
    have h0 : (env.listings i).filter (dateMatch s e) = [] := by
      have := h 0 (Nat.succ_pos n)
      simpa using this
    simp only [pollLoop]
    rw [downloadMatching_no_match env.http s e _ [] h0]
    simp only [List.isEmpty_nil, if_true]
    rw [ih (i + 1) (lc + 1) (w + 1)
      (fun j hj => by
        have := h (j + 1) (by omega)
        simpa [Nat.add_assoc, Nat.add_comm 1 j] using this)]
    have e1 : lc + 1 + n = lc + (n + 1) := by omega
    have e2 : w + 1 + n = w + (n + 1) := by omega
    rw [e1, e2]

/-- If the first `k` attempts match nothing and attempt `i + k` (within the
budget) has matching files that all download fine, the loop stops right after
attempt `i + k` with its matches: `k + 1` listing calls and `k` sleeps. -/
theorem pollLoop_first_match (env : PollEnv) (s e : Option Int) :
    ∀ (k n i lc w : Nat), k < n →
      (∀ j, j < k → (env.listings (i + j)).filter (dateMatch s e) = []) →
      attemptMatches env s e (i + k) ≠ [] →
      (∀ r ∈ env.listings (i + k), dateMatch s e r = true →
        (env.http r.downloadUrl).status < 400) →
      pollLoop env s e n i [] lc w =
        .ok ⟨attemptMatches env s e (i + k), lc + k + 1, w + k⟩ := by
  intro k
  induction k with
  | zero =>
    intro n i lc w hn _ hne hok
    simp only [Nat.add_zero] at hne hok ⊢
    obtain ⟨n', rfl⟩ : ∃ n', n = n' + 1 := ⟨n - 1, by omega⟩
    simp only [pollLoop]
    rw [downloadMatching_all_ok env.http s e _ [] hok]
    simp only [List.nil_append]
    have hA : (attemptMatches env s e i).isEmpty = false := by
      cases hc : attemptMatches env s e i with
      | nil => exact absurd hc hne
      | cons a l => rfl
    simp only [attemptMatches] at hA
    simp only [hA, Bool.false_eq_true, if_false, attemptMatches]
  | succ k ih =>
    intro n i lc w hn hprev hne hok
    obtain ⟨n', rfl⟩ : ∃ n', n = n' + 1 := ⟨n - 1, by omega⟩
    have h0 : (env.listings i).filter (dateMatch s e) = [] := by
      have := hprev 0 (Nat.succ_pos k)
      simpa using this
    simp only [pollLoop]
    rw [downloadMatching_no_match env.http s e _ [] h0]
    simp only [List.isEmpty_nil, if_true]
    have hshift : i + 1 + k = i + (k + 1) := by omega
    rw [ih n' (i + 1) (lc + 1) (w + 1) (by omega)
      (fun j hj => by
        have := hprev (j + 1) (by omega)
        simpa [Nat.add_assoc, Nat.add_comm 1 j] using this)
      (by rw [hshift]; exact hne)
      (by rw [hshift]; exact hok)]
    rw [hshift]
    have e1 : lc + 1 + k + 1 = lc + (k + 1) + 1 := by omega
    have e2 : w + 1 + k = w + (k + 1) := by omega
    rw [e1, e2]

/-- If the first `k` attempts match nothing and processing attempt `i + k`'s
listing raises a download error, that error propagates out of the loop. -/
theorem pollLoop_err (env : PollEnv) (s e : Option Int) (st : Nat) :
    ∀ (k n i lc w : Nat), k < n →
      (∀ j, j < k → (env.listings (i + j)).filter (dateMatch s e) = []) →
      downloadMatching env.http s e (env.listings (i + k)) [] = .error st →
      pollLoop env s e n i [] lc w = .error st := by
  intro k
  induction k with
  | zero =>
    intro n i lc w hn _ herr
    simp only [Nat.add_zero] at herr
    obtain ⟨n', rfl⟩ : ∃ n', n = n' + 1 := ⟨n - 1, by omega⟩
    simp only [pollLoop]
    rw [herr]
  | succ k ih =>
    intro n i lc w hn hprev herr
    obtain ⟨n', rfl⟩ : ∃ n', n = n' + 1 := ⟨n - 1, by omega⟩
    have h0 : (env.listings i).filter (dateMatch s e) = [] := by
      have := hprev 0 (Nat.succ_pos k)
      simpa using this
    simp only [pollLoop]
    rw [downloadMatching_no_match env.http s e _ [] h0]
    simp only [List.isEmpty_nil, if_true]
    exact ih n' (i + 1) (lc + 1) (w + 1) (by omega)
      (fun j hj => by
        have := hprev (j + 1) (by omega)
        simpa [Nat.add_assoc, Nat.add_comm 1 j] using this)
      (by
        have hshift : i + 1 + k = i + (k + 1) := by omega
        rw [hshift]
        exact herr)

/-- C1: as soon as one attempt's listing yields at least one file passing the
date-window test, the poller stops right after processing that listing: with
`k` the first matching attempt (even when `k + 1 < max_attempts`), exactly
`k + 1` listing calls and `k` inter-attempt waits happen, and the collected
downloads of attempt `k` are returned. -/
theorem poller_stops_on_first_match (env : PollEnv)
    (poll_interval max_attempts : Nat) (s e : Option Int) (k : Nat)
    (hk : k < max_attempts)
    (hprev : ∀ j, j < k → (env.listings j).filter (dateMatch s e) = [])
    (hne : (env.listings k).filter (dateMatch s e) ≠ [])
    (hok : ∀ r ∈ env.listings k, dateMatch s e r = true →
      (env.http r.downloadUrl).status < 400) :
    poll_and_download_reports env poll_interval max_attempts s e =
      .ok ⟨attemptMatches env s e k, k + 1, k⟩ := by
  simp only [poll_and_download_reports]
  have hne' : attemptMatches env s e (0 + k) ≠ [] := by
    simp only [Nat.zero_add, attemptMatches]
    intro hc
    exact hne (List.map_eq_nil_iff.mp hc)
  have h := pollLoop_first_match env s e k max_attempts 0 0 0 hk
    (fun j hj => by simpa using hprev j hj) hne'
    (by simpa using hok)
  simpa using h

/-- C1 witness: in `envSecondAttempt` with the window `[1, 9]`, attempt 1 is
the first matching attempt, so the run stops with 2 listing calls, 1 wait and
the single downloaded content. -/
theorem poller_stops_on_first_match_witness :
    poll_and_download_reports envSecondAttempt 60 5 (some 1) (some 9) =
      .ok ⟨["C"], 2, 1⟩ :=
  poller_stops_on_first_match envSecondAttempt 60 5 (some 1) (some 9) 1
    (by decide) (by decide) (by decide) (by decide)

/-- C6: with `max_attempts = 0` the poller returns an empty sequence
immediately — zero listing calls, zero downloads, zero waits — for every
environment, poll interval and pair of date filters. -/
theorem poller_zero_attempts (env : PollEnv) (poll_interval : Nat)
    (s e : Option Int) :
    poll_and_download_reports env poll_interval 0 s e = .ok ⟨[], 0, 0⟩ :=
  rfl

/-- C3 counterexample: with `max_attempts = 2` and listings that never match,
the code sleeps after the final attempt too, so 2 waits occur where the claim
predicts `maxAttempts − 1 = 1`. -/
theorem poller_wait_count_counterexample :
    poll_and_download_reports envNoFiles 60 2 none none = .ok ⟨[], 2, 2⟩ ∧
      (2 : Nat) ≠ 2 - 1 :=
  ⟨rfl, by decide⟩

/-- C3 amended: the poller sleeps after every attempt that collected nothing,
including the final one: a session exhausting `max_attempts` attempts with
zero matches performs exactly `max_attempts` listing calls and `max_attempts`
waits; and in the scenario where attempt 1 matches nothing and attempt 2
matches exactly one file, exactly two listing calls and one wait occur and the
single downloaded report is returned. -/
theorem poller_wait_after_every_empty_attempt (env : PollEnv)
    (poll_interval max_attempts : Nat) (s e : Option Int)
    (hok : ∀ url, (env.http url).status < 400) :
    ((∀ j, j < max_attempts → (env.listings j).filter (dateMatch s e) = []) →
      poll_and_download_reports env poll_interval max_attempts s e =
        .ok ⟨[], max_attempts, max_attempts⟩)
    ∧ (∀ c, 2 ≤ max_attempts →
        (env.listings 0).filter (dateMatch s e) = [] →
        attemptMatches env s e 1 = [c] →
        poll_and_download_reports env poll_interval max_attempts s e =
          .ok ⟨[c], 2, 1⟩) := by
  constructor
  · intro hall
    simp only [poll_and_download_reports]
    have h := pollLoop_exhaust env s e max_attempts 0 0 0
      (fun j hj => by simpa using hall j hj)
    simpa using h
  · intro c hma h0 h1
    simp only [poll_and_download_reports]
    have hne : attemptMatches env s e (0 + 1) ≠ [] := by
      rw [Nat.zero_add, h1]
      simp
    have h := pollLoop_first_match env s e 1 max_attempts 0 0 0 (by omega)
      (fun j hj => by
        have hj0 : j = 0 := by omega
        subst hj0
        simpa using h0)
      hne
      (fun r _ _ => hok r.downloadUrl)
    rw [h]
    rw [show (0 + 1 : Nat) = 1 from rfl, h1]

/-- C3 amended witness: a 3-attempt empty session waits 3 times, and in the
two-attempt scenario of `envSecondAttempt` one wait and two listing calls
occur with one report downloaded. -/
theorem poller_wait_after_every_empty_attempt_witness :
    poll_and_download_reports envNoFiles 60 3 none none = .ok ⟨[], 3, 3⟩ ∧
      poll_and_download_reports envSecondAttempt 60 2 (some 1) (some 9) =
        .ok ⟨["C"], 2, 1⟩ :=
  ⟨(poller_wait_after_every_empty_attempt envNoFiles 60 3 none none
      (fun _ => (by decide : (200 : Nat) < 400))).1 (by decide),
   (poller_wait_after_every_empty_attempt envSecondAttempt 60 2
      (some 1) (some 9) (fun _ => (by decide : (200 : Nat) < 400))).2
     "C" (by decide) (by decide) rfl⟩

/-- C7: when, in the first attempt that has in-window files (all earlier
attempts matched nothing, the in-window files before `f` in the listing
download fine), the download of the matched file `f` answers a non-success
status, the error is not caught: `poll_and_download_reports` aborts with that
status and the contents already downloaded in the session are discarded — no
partial result is returned. -/
theorem poller_download_failure_aborts (env : PollEnv)
    (poll_interval max_attempts : Nat) (s e : Option Int) (k : Nat)
    (pre rest : List ReportFile) (f : ReportFile)
    (hk : k < max_attempts)
    (hprev : ∀ j, j < k → (env.listings j).filter (dateMatch s e) = [])
    (hlist : env.listings k = pre ++ f :: rest)
    (hpreok : ∀ r ∈ pre, dateMatch s e r = true →
      (env.http r.downloadUrl).status < 400)
    (hf : dateMatch s e f = true)
    (h4 : 400 ≤ (env.http f.downloadUrl).status)
    (h6 : (env.http f.downloadUrl).status < 600) :
    poll_and_download_reports env poll_interval max_attempts s e =
      .error (env.http f.downloadUrl).status := by
  simp only [poll_and_download_reports]
  apply pollLoop_err env s e _ k max_attempts 0 0 0 hk
    (fun j hj => by simpa using hprev j hj)
  rw [Nat.zero_add, hlist]
  exact downloadMatching_err env.http s e f hf h4 h6 pre rest [] hpreok

/-- C7 witness: in `envFailingDownload` the first in-window file downloads
fine but the second answers status 500; the whole call aborts with 500 and the
already-downloaded content is not returned. -/
theorem poller_download_failure_aborts_witness :
    poll_and_download_reports envFailingDownload 60 3 (some 1) (some 9) =
      .error 500 :=
  poller_download_failure_aborts envFailingDownload 60 3 (some 1) (some 9) 0
    [⟨some 5, "good"⟩] [] ⟨some 6, "bad"⟩ (by decide)
    (fun j hj => absurd hj (Nat.not_lt_zero j)) rfl (by decide) (by decide)
    (by decide) (by decide)

/-- C2: throughout a polling session in which every download succeeds, a
content string is in the collected result sequence exactly when some attempt
`k` whose earlier attempts all matched nothing (i.e. an attempt the session
actually processed) lists a file that passes the date-window test — its
`endTimeMs`-derived timestamp is ≥ the start filter (if present) and ≤ the end
filter (if present), absent filters admitting all files — and that file's
download body is that string. -/
theorem poller_collects_iff_in_window (env : PollEnv)
    (poll_interval max_attempts : Nat) (s e : Option Int) (r : PollResult)
    (hok : ∀ url, (env.http url).status < 400)
    (hr : poll_and_download_reports env poll_interval max_attempts s e = .ok r) :
    ∀ c, c ∈ r.downloaded ↔
      ∃ k, k < max_attempts ∧
        (∀ j, j < k → (env.listings j).filter (dateMatch s e) = []) ∧
        ∃ f, f ∈ env.listings k ∧ dateMatch s e f = true ∧
          (env.http f.downloadUrl).text = c := by
  simp only [poll_and_download_reports] at hr
  by_cases hall : ∀ j, j < max_attempts →
      (env.listings j).filter (dateMatch s e) = []
  · rw [pollLoop_exhaust env s e max_attempts 0 0 0
      (fun j hj => by simpa using hall j hj)] at hr
    injection hr with hr'
    intro c
    constructor
    · intro hc
      rw [← hr'] at hc
      simp at hc
    · rintro ⟨k, hkma, -, f, hfmem, hfmatch, -⟩
      have hf' : f ∈ (env.listings k).filter (dateMatch s e) :=
        List.mem_filter.mpr ⟨hfmem, hfmatch⟩
      rw [hall k hkma] at hf'
      simp at hf'
  · push_neg at hall
    obtain ⟨j0, hj0ma, hj0ne⟩ := hall
    have hex : ∃ j, ¬((env.listings j).filter (dateMatch s e) = []) :=
      ⟨j0, hj0ne⟩
    have hkne := Nat.find_spec hex
    have hkmin : ∀ m, m < Nat.find hex →
        (env.listings m).filter (dateMatch s e) = [] :=
      fun m hm => not_not.mp (Nat.find_min hex hm)
    have hkma : Nat.find hex < max_attempts :=
      lt_of_le_of_lt (Nat.find_min' hex hj0ne) hj0ma
    have hne : attemptMatches env s e (0 + Nat.find hex) ≠ [] := by
      rw [Nat.zero_add]
      simp only [attemptMatches]
      intro hc
      exact hkne (List.map_eq_nil_iff.mp hc)
    rw [pollLoop_first_match env s e (Nat.find hex) max_attempts 0 0 0 hkma
      (fun j hj => by simpa using hkmin j hj) hne
      (fun r _ _ => hok r.downloadUrl)] at hr
    injection hr with hr'
    rw [Nat.zero_add] at hr'
    intro c
    constructor
    · intro hc
      rw [← hr'] at hc
      simp only [attemptMatches, List.mem_map] at hc
      obtain ⟨f, hf, hftext⟩ := hc
      rw [List.mem_filter] at hf
      exact ⟨Nat.find hex, hkma, hkmin, f, hf.1, hf.2, hftext⟩
    · rintro ⟨k', hk'ma, hk'prev, f, hfmem, hfmatch, hftext⟩
      have hk'eq : k' = Nat.find hex := by
        rcases lt_trichotomy k' (Nat.find hex) with h | h | h
        · have hempty := hkmin k' h
          have hf' : f ∈ (env.listings k').filter (dateMatch s e) :=
            List.mem_filter.mpr ⟨hfmem, hfmatch⟩
          rw [hempty] at hf'
          simp at hf'
        · exact h
        · exact absurd (hk'prev (Nat.find hex) h) hkne
      subst hk'eq
      rw [← hr']
      simp only [attemptMatches, List.mem_map]
      exact ⟨f, List.mem_filter.mpr ⟨hfmem, hfmatch⟩, hftext⟩

/-- C2 witness: in the two-attempt scenario of `envSecondAttempt` the
collected content `"C"` is characterised exactly by its in-window file in
attempt 1's listing. -/
theorem poller_collects_iff_in_window_witness :
    "C" ∈ (PollResult.mk ["C"] 2 1).downloaded ↔
      ∃ k, k < 2 ∧
        (∀ j, j < k →
          (envSecondAttempt.listings j).filter (dateMatch (some 1) (some 9)) = []) ∧
        ∃ f, f ∈ envSecondAttempt.listings k ∧
          dateMatch (some 1) (some 9) f = true ∧
          (envSecondAttempt.http f.downloadUrl).text = "C" :=
  poller_collects_iff_in_window envSecondAttempt 60 2 (some 1) (some 9)
    ⟨["C"], 2, 1⟩ (fun _ => (by decide : (200 : Nat) < 400)) rfl "C"

/-- C10: a listed file without an `endTimeMs` field gets period-end timestamp
epoch 0 (1970-01-01 UTC): any start filter strictly after the epoch excludes
it, while without a start filter it passes exactly when the end bound (if any)
admits epoch 0; and a session whose listings contain only such files with a
post-1970 start filter downloads nothing at all. -/
theorem missing_endTimeMs_treated_as_epoch (f : ReportFile)
    (h : f.endTimeMs = none) :
    reportDate f = 0 ∧
    (∀ s : Int, 0 < s → ∀ e : Option Int, dateMatch (some s) e f = false) ∧
    (∀ e : Int, dateMatch none (some e) f = decide (0 ≤ e)) ∧
    dateMatch none none f = true ∧
    (∀ (env : PollEnv) (poll_interval max_attempts : Nat) (e : Option Int)
        (s : Int), 0 < s →
      (∀ i r, r ∈ env.listings i → r.endTimeMs = none) →
      poll_and_download_reports env poll_interval max_attempts (some s) e =
        .ok ⟨[], max_attempts, max_attempts⟩) := by
  refine ⟨by simp [reportDate, h], ?_, ?_, ?_, ?_⟩
  · intro s hs e
    have hns : ¬(reportDate f ≥ s) := by
      rw [show reportDate f = 0 by simp [reportDate, h]]
      omega
    simp [dateMatch, hns]
  · intro e
    simp [dateMatch, reportDate, h]
  · simp [dateMatch]
  · intro env poll_interval max_attempts e s hs hnone
    have hfilter : ∀ i, (env.listings i).filter (dateMatch (some s) e) = [] := by
      intro i
      rw [List.filter_eq_nil_iff]
      intro r hr
      have hrd : reportDate r = 0 := by simp [reportDate, hnone i r hr]
      have hns : ¬(reportDate r ≥ s) := by omega
      simp [dateMatch, hns]
    simp only [poll_and_download_reports]
    have hx := pollLoop_exhaust env (some s) e max_attempts 0 0 0
      (fun j _ => hfilter (0 + j))
    simpa using hx

/-- C10 witness: a file `⟨none, "u"⟩` has timestamp 0, is excluded by start
filter 1 and admitted with no start filter; the all-missing session with
start filter 1 downloads nothing over 2 attempts. -/
theorem missing_endTimeMs_treated_as_epoch_witness :
    reportDate ⟨none, "u"⟩ = 0 ∧
      dateMatch (some 1) none ⟨none, "u"⟩ = false ∧
      dateMatch none (some 9) ⟨none, "u"⟩ = true ∧
      poll_and_download_reports
        ⟨fun _ => [⟨none, "u"⟩], fun _ => ⟨200, "x"⟩⟩ 60 2 (some 1) none =
        .ok ⟨[], 2, 2⟩ :=
  ⟨(missing_endTimeMs_treated_as_epoch ⟨none, "u"⟩ rfl).1,
   (missing_endTimeMs_treated_as_epoch ⟨none, "u"⟩ rfl).2.1 1 (by decide) none,
   by
     have := (missing_endTimeMs_treated_as_epoch ⟨none, "u"⟩ rfl).2.2.1 9
     simpa using this,
   (missing_endTimeMs_treated_as_epoch ⟨none, "u"⟩ rfl).2.2.2.2
     ⟨fun _ => [⟨none, "u"⟩], fun _ => ⟨200, "x"⟩⟩ 60 2 none 1 (by decide)
     (fun _ r hr => by
       simp only [List.mem_singleton] at hr
       rw [hr])⟩

/-- C4: `create_reporting_job` returns the newly created job when remote
creation succeeds; on an HTTP 409 conflict it returns the first listed job
whose `reportTypeId` equals the requested one; on a conflict with no matching
listed job it re-raises the 409; and a non-409 creation error is re-raised
unchanged. -/
theorem create_job_conflict_resolution (env : RegistryEnv)
    (report_type_id name : String) :
    (∀ job, env.create report_type_id name = .ok job →
      create_reporting_job env report_type_id name = .ok job)
    ∧ (∀ job, env.create report_type_id name = .error 409 →
        env.jobs.find? (fun j => j.reportTypeId == some report_type_id)
          = some job →
        create_reporting_job env report_type_id name = .ok job)
    ∧ (env.create report_type_id name = .error 409 →
        env.jobs.find? (fun j => j.reportTypeId == some report_type_id)
          = none →
        create_reporting_job env report_type_id name = .error 409)
    ∧ (∀ st, st ≠ 409 → env.create report_type_id name = .error st →
        create_reporting_job env report_type_id name = .error st) := by
  refine ⟨?_, ?_, ?_, ?_⟩
  · intro job hc
    simp [create_reporting_job, hc]
  · intro job hc hf
    simp [create_reporting_job, list_reporting_jobs, hc, hf]
  · intro hc hf
    simp [create_reporting_job, list_reporting_jobs, hc, hf]
  · intro st hst hc
    simp [create_reporting_job, hc, hst]

/-- C4 witness: in `envConflict` (creation always answers 409, job `J1` of the
requested type is listed) `create_reporting_job` falls back to the listed
job. -/
theorem create_job_conflict_resolution_witness :
    create_reporting_job envConflict "rt" "n" = .ok ⟨"J1", some "rt", "N"⟩ :=
  (create_job_conflict_resolution envConflict "rt" "n").2.1
    ⟨"J1", some "rt", "N"⟩ rfl rfl

/-- C5: the reporting command's job resolution: an explicit job id is used
verbatim with zero `create_reporting_job` and zero `list_reporting_jobs`
calls; with force-new set, creation is invoked (createCalls = 1) whatever the
listing contains; without force-new, the first listed job of the requested
`reportTypeId` is reused with zero creation calls; creation happens only when
no listed job matches. -/
theorem reporting_job_resolution (env : RegistryEnv) (report_type_id : String) :
    (∀ jid force_new,
      resolve_job env (some jid) force_new report_type_id = .ok ⟨jid, 0, 0⟩)
    ∧ (∀ job, create_reporting_job env report_type_id "Forced New Report"
          = .ok job →
        resolve_job env none true report_type_id = .ok ⟨job.id, 1, 0⟩)
    ∧ (∀ job, env.jobs.find?
          (fun j => j.reportTypeId == some report_type_id) = some job →
        resolve_job env none false report_type_id = .ok ⟨job.id, 0, 1⟩)
    ∧ (env.jobs.find? (fun j => j.reportTypeId == some report_type_id)
          = none →
        ∀ job, create_reporting_job env report_type_id
            ("Report " ++ report_type_id) = .ok job →
          resolve_job env none false report_type_id = .ok ⟨job.id, 1, 1⟩) := by
  refine ⟨fun jid force_new => rfl, ?_, ?_, ?_⟩
  · intro job hc
    simp [resolve_job, hc]
  · intro job hf
    simp [resolve_job, list_reporting_jobs, hf]
  · intro hf job hc
    simp [resolve_job, list_reporting_jobs, hf, hc]

/-- C5 witness: in `envExistingJob` (a matching job `OLD` is listed and
creation would mint `NEW`), force-new creates anyway (createCalls = 1,
resolving to `NEW`), while without force-new the listed job is reused with no
creation call (createCalls = 0, resolving to `OLD`). -/
theorem reporting_job_resolution_witness :
    resolve_job envExistingJob none true "rt" = .ok ⟨"NEW", 1, 0⟩ ∧
      resolve_job envExistingJob none false "rt" = .ok ⟨"OLD", 0, 1⟩ :=
  ⟨(reporting_job_resolution envExistingJob "rt").2.1
      ⟨"NEW", some "rt", "F"⟩ rfl,
   (reporting_job_resolution envExistingJob "rt").2.2.1
      ⟨"OLD", some "rt", "O"⟩ rfl⟩

/-- C8: `load_video_ids` returns a plain JSON array unchanged (order
preserved); for an object containing the key `"video_ids"` it returns the
value under that key; every other JSON shape (object without the key, null,
boolean, number, string) raises the configuration error. -/
theorem load_video_ids_shapes :
    (∀ elems, load_video_ids (.arr elems) = .ok (.arr elems))
    ∧ (∀ fields v, fields.lookup "video_ids" = some v →
        load_video_ids (.obj fields) = .ok v)
    ∧ (∀ fields, fields.lookup "video_ids" = none →
        load_video_ids (.obj fields) = .error "Invalid config format")
    ∧ load_video_ids .null = .error "Invalid config format"
    ∧ (∀ b, load_video_ids (.bool b) = .error "Invalid config format")
    ∧ (∀ n, load_video_ids (.num n) = .error "Invalid config format")
    ∧ (∀ t, load_video_ids (.str t) = .error "Invalid config format") := by
  refine ⟨fun elems => rfl, ?_, ?_, rfl, fun b => rfl, fun n => rfl,
    fun t => rfl⟩
  · intro fields v h
    simp [load_video_ids, h]
  · intro fields h
    simp [load_video_ids, h]

/-- C8 witness: a one-key `{"video_ids": ["a"]}` object yields the inner
array. -/
theorem load_video_ids_shapes_witness :
    load_video_ids (.obj [("video_ids", .arr [.str "a"])])
      = .ok (.arr [.str "a"]) :=
  load_video_ids_shapes.2.1 [("video_ids", .arr [.str "a"])]
    (.arr [.str "a"]) rfl

/-- C9: the analytics command's per-video failures are isolated: every video
id in the batch yields exactly one processed entry, in order, whatever the
outcomes (first conjunct); the entries around any video — in particular one
whose body fails — are the same as if the loop ran on the surrounding
sublists alone, so a failure never aborts the rest (second conjunct); and
every video in the batch, failing or not, has its own outcome recorded
(third conjunct). -/
theorem analytics_per_video_isolation {Resp : Type} (env : AnalyticsEnv Resp) :
    (∀ vids, (analytics_loop env vids).map Prod.fst = vids)
    ∧ (∀ pre vid post,
        analytics_loop env (pre ++ vid :: post) =
          analytics_loop env pre ++
            (vid, process_video env vid) :: analytics_loop env post)
    ∧ (∀ vids vid, vid ∈ vids →
        (vid, process_video env vid) ∈ analytics_loop env vids) := by
  refine ⟨?_, ?_, ?_⟩
  · intro vids
    induction vids with
    | nil => rfl
    | cons v rest ih => simp [analytics_loop, ih]
  · intro pre vid post
    induction pre with
    | nil => rfl
    | cons p pre' ih => simp [analytics_loop, ih]
  · intro vids vid hmem
    induction vids with
    | nil => simp at hmem
    | cons v rest ih =>
      rcases List.mem_cons.mp hmem with h | h
      · subst h
        simp [analytics_loop]
      · simp only [analytics_loop, List.mem_cons]
        exact Or.inr (ih h)

/-- C9 witness: with `envOneBadVideo`, the batch `["bad", "good"]` processes
both videos — the failing one records its error, and the following one is
still processed. -/
theorem analytics_per_video_isolation_witness :
    (analytics_loop envOneBadVideo ["bad", "good"]).map Prod.fst
        = ["bad", "good"] ∧
      ("good", process_video envOneBadVideo "good") ∈
        analytics_loop envOneBadVideo ["bad", "good"] :=
  ⟨(analytics_per_video_isolation envOneBadVideo).1 ["bad", "good"],
   (analytics_per_video_isolation envOneBadVideo).2.2 ["bad", "good"] "good"
     (by simp)⟩
